import Mathlib

/-!
Verification development for the deployment fabfile (`src/fabric/fabfile.py`).

The file shallowly embeds the template-synchronization core
(`get_templates`, `upload_template_and_reload`) and the deployment
orchestration (`deploy`, `rollback`, `restart`) of the fabfile, and proves
the stated properties of change detection, idempotence, reload firing,
owner/mode application and deploy ordering against that embedding.

Modelling conventions:
- the fabric `env` dict is an association list of string bindings; dict
  assignment (`env.db_pass = ...`) is a shadowing cons, observationally the
  same through lookup;
- Python `%`-formatting with a mapping is embedded for the `%(key)s` and
  `%%` forms actually used by the templates; any other `%`-construct is
  conservatively a format error.  CPython fetches the mapped value when it
  reaches `)` and checks the conversion character afterwards; the embedding
  fetches it at the conversion character, which coincides on every
  well-formed `%(key)s` template;
- remote effects (exists/cat/upload/chown/chmod/reload) are recorded in a
  trace and applied to an explicit remote file-system state.
-/

namespace Fabfile

/-- Python dict lookup on an association list (first binding wins). -/
def dictGet {α : Type} : List (String × α) → String → Option α
  | [], _ => none
  | (k', v) :: rest, k => if k' = k then some v else dictGet rest k

/-- Python dict assignment `d[k] = v`, as a shadowing cons: through
`dictGet` this is exactly an in-place dict update. -/
def dictSet {α : Type} (d : List (String × α)) (k : String) (v : α) :
    List (String × α) := (k, v) :: d

/-- The fabric `env` mapping from variable name to string value. -/
abbrev Env := List (String × String)

/-- Errors raised by Python `%`-formatting: `KeyError` on a mapping key
missing from `env` (the spec's `MissingVariable`), and `ValueError` on a
malformed format (the spec's `TemplateRenderError`). -/
inductive SubstErr where
  | missingVariable (key : String)
  | badFormat
deriving DecidableEq, Repr

/-- Scanner state of the `%`-formatting loop: plain text, just read `%`,
reading a `(key)` (accumulating the key's characters), or after `)`
expecting the conversion character. -/
inductive FmtState where
  | text
  | percent
  | inKey (acc : List Char)
  | conv (key : List Char)
deriving DecidableEq, Repr

/-- Python `s % env` on a template string, character by character
(structural recursion on the remaining input).  `%%` yields a literal `%`;
`%(key)s` yields the value bound to `key`, or `KeyError`
(`missingVariable`) when `key` is unbound; any other use of `%` is a
format error. -/
def interpGo (env : Env) : FmtState → List Char → Except SubstErr (List Char)
  | .text, [] => .ok []
  | .text, c :: r =>
    if c = '%' then interpGo env .percent r
    else (c :: ·) <$> interpGo env .text r
  | .percent, [] => .error .badFormat
  | .percent, c :: r =>
    if c = '%' then ('%' :: ·) <$> interpGo env .text r
    else if c = '(' then interpGo env (.inKey []) r
    else .error .badFormat
  | .inKey _, [] => .error .badFormat
  | .inKey acc, c :: r =>
    if c = ')' then interpGo env (.conv acc) r
    else interpGo env (.inKey (acc ++ [c])) r
  | .conv _, [] => .error .badFormat
  | .conv key, c :: r =>
    if c = 's' then
      match dictGet env (String.mk key) with
      | some v => (v.data ++ ·) <$> interpGo env .text r
      | none => .error (.missingVariable (String.mk key))
    else .error .badFormat

/-- Python `s % env` on a whole string: the fabfile's `v % env` and
`local_data %= env`. -/
def interp (env : Env) (s : String) : Except SubstErr String :=
  String.mk <$> interpGo env .text s.data

/-- The mapping keys of the `%(key)s` placeholders of a template, in
occurrence order, mirroring the scan of `interpGo`. -/
def tmplKeysGo : FmtState → List Char → List String
  | _, [] => []
  | .text, c :: r =>
    if c = '%' then tmplKeysGo .percent r else tmplKeysGo .text r
  | .percent, c :: r =>
    if c = '%' then tmplKeysGo .text r
    else if c = '(' then tmplKeysGo (.inKey []) r
    else []
  | .inKey acc, c :: r =>
    if c = ')' then tmplKeysGo (.conv acc) r
    else tmplKeysGo (.inKey (acc ++ [c])) r
  | .conv key, c :: r =>
    if c = 's' then String.mk key :: tmplKeysGo .text r else []

/-- Well-formedness of a template under the `%`-format scan: every `%`
starts a `%%` or a complete `%(key)s` placeholder. -/
def wfGo : FmtState → List Char → Bool
  | .text, [] => true
  | .text, c :: r =>
    if c = '%' then wfGo .percent r else wfGo .text r
  | .percent, [] => false
  | .percent, c :: r =>
    if c = '%' then wfGo .text r
    else if c = '(' then wfGo (.inKey []) r
    else false
  | .inKey _, [] => false
  | .inKey acc, c :: r =>
    if c = ')' then wfGo (.conv acc) r
    else wfGo (.inKey (acc ++ [c])) r
  | .conv _, [] => false
  | .conv _, c :: r =>
    if c = 's' then wfGo .text r else false

/-- Follows the spec's words, for comparison with `interpGo`: the total
rendering that replaces every `%(key)s` occurrence by the corresponding
environment value (and every `%%` by `%`), with a missing key silently
rendered as the empty string instead of failing. -/
def renderAllPlaceholders (env : Env) : FmtState → List Char → List Char
  | _, [] => []
  | .text, c :: r =>
    if c = '%' then renderAllPlaceholders env .percent r
    else c :: renderAllPlaceholders env .text r
  | .percent, c :: r =>
    if c = '%' then '%' :: renderAllPlaceholders env .text r
    else if c = '(' then renderAllPlaceholders env (.inKey []) r
    else []
  | .inKey acc, c :: r =>
    if c = ')' then renderAllPlaceholders env (.conv acc) r
    else renderAllPlaceholders env (.inKey (acc ++ [c])) r
  | .conv key, c :: r =>
    if c = 's' then
      ((dictGet env (String.mk key)).getD "").data ++
        renderAllPlaceholders env .text r
    else []

/-- Characters removed by Python `str.strip()` with no argument (the
line-break characters among them are already gone by the time the fabfile
calls `.strip()`). -/
def pyWhitespace (c : Char) : Bool :=
  c = ' ' || c = '\t' || c = '\n' || c = '\r' ||
    c = Char.ofNat 11 || c = Char.ofNat 12

/-- Python `str.strip()`: drop leading and trailing whitespace. -/
def pyStrip (l : List Char) : List Char :=
  ((l.dropWhile pyWhitespace).reverse.dropWhile pyWhitespace).reverse

/-- The fabfile's `clean` lambda:
`s.replace("\n", "").replace("\r", "").strip()`. -/
def clean (s : String) : String :=
  String.mk (pyStrip (((s.data.filter (fun c => c ≠ '\n'))).filter
    (fun c => c ≠ '\r')))

example : clean "a\r\nb" = clean "a\nb" := by decide
example : clean "a\nb" ≠ clean "a\nb\nc" := by decide

/-- A template descriptor: one value of the fabfile's `templates` dict.
The same shape describes both the raw registry entry and the rendered
(`get_templates`) form; `reload_command`, `owner` and `mode` are read with
`.get(...)` in the source and are optional. -/
structure Template where
  local_path : String
  remote_path : String
  reload_command : Option String := none
  owner : Option String := none
  mode : Option String := none
deriving DecidableEq, Repr

/-- The template registry: the fabfile's module-level `templates` dict. -/
abbrev Registry := List (String × Template)

/-- The fabfile's concrete `templates` dict (nginx and supervisor). -/
def templates : Registry :=
  [("nginx",
    { local_path := "deploy/nginx.conf",
      remote_path := "/etc/nginx/sites-enabled/%(live_host)s.conf",
      reload_command := some "service nginx restart" }),
   ("supervisor",
    { local_path := "deploy/supervisor.conf",
      remote_path := "/etc/supervisor/conf.d/%(proj_name)s.conf",
      reload_command := some "supervisorctl reload" })]

/-- Render one optional field of a template dict entry with `v % env`. -/
def renderOpt (env : Env) : Option String → Except SubstErr (Option String)
  | none => .ok none
  | some s => some <$> interp env s

/-- Render every field of one template dict entry
(`dict([(k, v % env) for k, v in data.items()])`). -/
def renderTemplate (env : Env) (t : Template) : Except SubstErr Template :=
  match interp env t.local_path with
  | .error e => .error e
  | .ok lp =>
    match interp env t.remote_path with
    | .error e => .error e
    | .ok rp =>
      match renderOpt env t.reload_command with
      | .error e => .error e
      | .ok rc =>
        match renderOpt env t.owner with
        | .error e => .error e
        | .ok ow =>
          match renderOpt env t.mode with
          | .error e => .error e
          | .ok md =>
            .ok { local_path := lp, remote_path := rp, reload_command := rc,
                  owner := ow, mode := md }

/-- `get_templates()`: each template of the registry with env vars
injected; a `KeyError`/`ValueError` of `%`-substitution aborts the run. -/
def get_templates : Registry → Env → Except SubstErr Registry
  | [], _ => .ok []
  | (n, t) :: rest, env =>
    match renderTemplate env t with
    | .error e => .error e
    | .ok d =>
      match get_templates rest env with
      | .error e => .error e
      | .ok m => .ok ((n, d) :: m)

/-- The remote file system: remote absolute path to file content. -/
abbrev RemoteFs := List (String × String)

/-- A remote operation issued by `upload_template_and_reload`, in issue
order. -/
inductive Op where
  | existsCheck (path : String)
  | catFile (path : String)
  | computeDbPass
  | upload (path content : String)
  | chown (owner path : String)
  | chmod (mode path : String)
  | reload (command : String)
deriving DecidableEq, Repr

/-- The observable outcome of one synchronization call: the early return
on equal normalized contents is `Unchanged`; an upload is `Uploaded` when
the remote path existed before the call and `Created` otherwise. -/
inductive SyncResult where
  | Unchanged
  | Uploaded
  | Created
deriving DecidableEq, Repr

/-- An error aborting a synchronization or deployment run:
`%`-substitution failure (`renderError`), a name missing from the
templates dict, a missing local template file (`IOError`), a missing
remote marker file, or an aborted privileged command (fabric stops the run
when a command exits nonzero). -/
inductive SyncErr where
  | renderError (e : SubstErr)
  | missingTemplate (name : String)
  | missingLocalFile (path : String)
  | missingRemoteFile (path : String)
  | opFailed (op : Op)
deriving DecidableEq, Repr

/-- The ambient run fixtures: the local working tree, the derived secret,
and whether each class of privileged command succeeds on this host. -/
structure World where
  localFiles : List (String × String)
  /-- Modelled from the spec: the body of `db_pass()` is not part of the
  repository (only its call site is); per the spec it computes the derived
  database-password secret, one fixed value for the run. -/
  dbPassValue : String
  chownOk : Bool := true
  chmodOk : Bool := true
  reloadOk : Bool := true
deriving DecidableEq, Repr

instance {ε α : Type} [DecidableEq ε] [DecidableEq α] :
    DecidableEq (Except ε α) := fun a b =>
  match a, b with
  | .ok x, .ok y =>
    if h : x = y then .isTrue (by rw [h])
    else .isFalse (by intro hc; cases hc; exact h rfl)
  | .error x, .error y =>
    if h : x = y then .isTrue (by rw [h])
    else .isFalse (by intro hc; cases hc; exact h rfl)
  | .ok _, .error _ => .isFalse (by intro hc; cases hc)
  | .error _, .ok _ => .isFalse (by intro hc; cases hc)

/-- The mutable state a synchronization call reads and writes: the fabric
`env` dict and the remote file system. -/
structure SyncState where
  env : Env
  remote : RemoteFs
deriving DecidableEq, Repr

/-- Result of one synchronization call: outcome (or abort), final state,
and the trace of remote operations issued. -/
structure SyncOut where
  result : Except SyncErr SyncResult
  state : SyncState
  trace : List Op
deriving DecidableEq, Repr

/-- Python's substring test `needle in haystack`, on character lists. -/
def hasSubstr (needle : List Char) : List Char → Bool
  | [] => needle.isEmpty
  | c :: rest => needle.isPrefixOf (c :: rest) || hasSubstr needle rest

/-- The marker whose presence in the raw local template content makes
`upload_template_and_reload` derive the database password:
`"%(db_pass)s" in local_data`. -/
def dbMarker : List Char := "%(db_pass)s".data

/-- The environment after the lazy `db_pass` derivation step: when the raw
local content contains the marker, `env.db_pass = db_pass()` is executed,
otherwise `env` is untouched. -/
def envAfter (w : World) (e : Env) (raw : String) : Env :=
  if hasSubstr dbMarker raw.data then dictSet e "db_pass" w.dbPassValue
  else e

/-- The read-side trace of one call: the `exists(remote_path)` check,
followed by the privileged `cat` when the path exists. -/
def readTrace (t : Template) (st : SyncState) : List Op :=
  if (dictGet st.remote t.remote_path).isSome then
    [Op.existsCheck t.remote_path, Op.catFile t.remote_path]
  else [Op.existsCheck t.remote_path]

/-- The `db_pass()` derivation recorded when the marker is present. -/
def passTrace (raw : String) : List Op :=
  if hasSubstr dbMarker raw.data then [Op.computeDbPass] else []

/-- Tail of `upload_template_and_reload` for `reload_command`: issue the
reload when configured; a nonzero exit aborts the run (fabric's default)
after the command was issued. -/
def doReload (w : World) (t : Template) (existed : Bool) (st : SyncState)
    (tr : List Op) : SyncOut :=
  match t.reload_command with
  | none => ⟨.ok (if existed then .Uploaded else .Created), st, tr⟩
  | some c =>
    if w.reloadOk then
      ⟨.ok (if existed then .Uploaded else .Created), st, tr ++ [.reload c]⟩
    else ⟨.error (.opFailed (.reload c)), st, tr ++ [.reload c]⟩

/-- Tail of `upload_template_and_reload` for `mode`: issue
`chmod mode remote_path` when a mode is configured, then the reload step;
a failing chmod aborts the run, leaving the uploaded file in place. -/
def doChmod (w : World) (t : Template) (existed : Bool) (st : SyncState)
    (tr : List Op) : SyncOut :=
  match t.mode with
  | none => doReload w t existed st tr
  | some m =>
    if w.chmodOk then doReload w t existed st (tr ++ [.chmod m t.remote_path])
    else ⟨.error (.opFailed (.chmod m t.remote_path)), st,
          tr ++ [.chmod m t.remote_path]⟩

/-- Tail of `upload_template_and_reload` for `owner`: issue
`chown owner remote_path` when an owner is configured, then the chmod and
reload steps; a failing chown aborts the run, leaving the uploaded file in
place. -/
def doChown (w : World) (t : Template) (existed : Bool) (st : SyncState)
    (tr : List Op) : SyncOut :=
  match t.owner with
  | none => doChmod w t existed st tr
  | some o =>
    if w.chownOk then doChmod w t existed st (tr ++ [.chown o t.remote_path])
    else ⟨.error (.opFailed (.chown o t.remote_path)), st,
          tr ++ [.chown o t.remote_path]⟩

/-- Body of `upload_template_and_reload` once the template is resolved:
check remote existence and read the remote content (empty when absent),
read the local template, derive `db_pass` when the raw content contains
the `"%(db_pass)s"` marker, render with `local_data %= env`, compare the
`clean`ed strings, and on difference upload and run the chown/chmod/reload
tail.  fabric's `upload_template` re-reads `local_path` and renders it
with the same `env`, so the uploaded content is exactly `local_data`. -/
def syncCore (w : World) (t : Template) (st : SyncState) : SyncOut :=
  let existed := (dictGet st.remote t.remote_path).isSome
  let remote_data := (dictGet st.remote t.remote_path).getD ""
  match dictGet w.localFiles t.local_path with
  | none => ⟨.error (.missingLocalFile t.local_path), st, readTrace t st⟩
  | some raw =>
    match interp (envAfter w st.env raw) raw with
    | .error e =>
      ⟨.error (.renderError e), { st with env := envAfter w st.env raw },
       readTrace t st ++ passTrace raw⟩
    | .ok local_data =>
      if clean remote_data = clean local_data then
        ⟨.ok .Unchanged, { st with env := envAfter w st.env raw },
         readTrace t st ++ passTrace raw⟩
      else
        doChown w t existed
          { env := envAfter w st.env raw,
            remote := dictSet st.remote t.remote_path local_data }
          (readTrace t st ++ passTrace raw ++
            [Op.upload t.remote_path local_data])

/-- `upload_template_and_reload(name)`: resolve the registry against the
environment (`get_templates`), look the requested template up by name, and
run the synchronization body. -/
def upload_template_and_reload (w : World) (reg : Registry) (name : String)
    (st : SyncState) : SyncOut :=
  match get_templates reg st.env with
  | .error e => ⟨.error (.renderError e), st, []⟩
  | .ok rendered =>
    match dictGet rendered name with
    | none => ⟨.error (.missingTemplate name), st, []⟩
    | some t => syncCore w t st

/-- Source-control and service state of the remote host: the checked-out
revision, the revision `git pull origin master` would bring in, the
content of the `last.commit` marker file, and whether
`/var/run/nginx.pid` exists. -/
structure RepoState where
  head : Nat
  originHead : Nat
  lastCommit : Option Nat
  nginxPidExists : Bool
deriving DecidableEq, Repr

/-- A step of the deployment orchestration, in issue order. -/
inductive DeployOp where
  | tmplOp (op : Op)
  | recordCommit (rev : Nat)
  | gitPull
  | killHup
  | supervisorStart
  | gitCheckout (rev : Nat)
deriving DecidableEq, Repr

/-- Full state a `deploy`/`rollback` invocation acts on. -/
structure DeployState where
  sync : SyncState
  repo : RepoState
deriving DecidableEq, Repr

/-- `restart()`: `kill -HUP` on the recorded nginx pid when the pid file
exists, otherwise start the process fresh via supervisor. -/
def restart (r : RepoState) : List DeployOp :=
  if r.nginxPidExists then [.killHup] else [.supervisorStart]

/-- The template loop of `deploy`:
`for name in get_templates(): upload_template_and_reload(name)`.
An aborted call stops the loop (and the whole run). -/
def syncAll (w : World) (reg : Registry) (names : List String)
    (st : SyncState) : Except SyncErr SyncState × List Op :=
  match names with
  | [] => (.ok st, [])
  | n :: rest =>
    let out := upload_template_and_reload w reg n st
    match out.result with
    | .error e => (.error e, out.trace)
    | .ok _ =>
      let (res, tr) := syncAll w reg rest out.state
      (res, out.trace ++ tr)

/-- `deploy()`: synchronize every registered template, record the
currently checked-out revision into the remote `last.commit` marker
(`git rev-parse HEAD > last.commit`), pull the latest revision
(`git pull origin master`), then restart. -/
def deploy (w : World) (reg : Registry) (ds : DeployState) :
    Except SyncErr DeployState × List DeployOp :=
  match get_templates reg ds.sync.env with
  | .error e => (.error (.renderError e), [])
  | .ok rendered =>
    let (res, tr) := syncAll w reg (rendered.map Prod.fst) ds.sync
    match res with
    | .error e => (.error e, tr.map .tmplOp)
    | .ok st' =>
      let r0 := ds.repo
      let r1 := { r0 with lastCommit := some r0.head }
      let r2 := { r1 with head := r1.originHead }
      (.ok { sync := st', repo := r2 },
       tr.map .tmplOp ++ [.recordCommit r0.head, .gitPull] ++ restart r2)

/-- `rollback()`: check out the revision recorded in `last.commit`
(`git checkout \x60cat last.commit\x60`), then restart; aborts when the
marker file is absent. -/
def rollback (ds : DeployState) : Except SyncErr DeployState × List DeployOp :=
  match ds.repo.lastCommit with
  | none => (.error (.missingRemoteFile "last.commit"), [])
  | some rev =>
    let r2 := { ds.repo with head := rev }
    (.ok { ds with repo := r2 }, [.gitCheckout rev] ++ restart r2)

/-- Remote operations that mutate the host or its services: upload, chown,
chmod, reload. -/
def isMutatingOp : Op → Bool
  | .upload _ _ => true
  | .chown _ _ => true
  | .chmod _ _ => true
  | .reload _ => true
  | _ => false

/-- Upload operations. -/
def isUploadOp : Op → Bool
  | .upload _ _ => true
  | _ => false

/-- Chown operations. -/
def isChownOp : Op → Bool
  | .chown _ _ => true
  | _ => false

/-- Chmod operations. -/
def isChmodOp : Op → Bool
  | .chmod _ _ => true
  | _ => false

/-- Reload operations. -/
def isReloadOp : Op → Bool
  | .reload _ => true
  | _ => false

/-- Derivations of the `db_pass` secret. -/
def isDbPassComputation : Op → Bool
  | .computeDbPass => true
  | _ => false

/-- `e'` extends `e`: every binding visible in `e` is visible with the
same value in `e'`. -/
def envLe (e e' : Env) : Prop :=
  ∀ k v, dictGet e k = some v → dictGet e' k = some v

theorem dictGet_set_self {α : Type} (d : List (String × α)) (k : String)
    (v : α) : dictGet (dictSet d k v) k = some v := by
  simp [dictGet, dictSet]

theorem dictGet_set_ne {α : Type} (d : List (String × α)) {k k' : String}
    (v : α) (h : k ≠ k') : dictGet (dictSet d k v) k' = dictGet d k' := by
  simp [dictGet, dictSet, h]

theorem envLe_refl (e : Env) : envLe e e := fun _ _ h => h

/-- Rendering succeeds, with the same output, in any extended
environment. -/
theorem interpGo_mono {e e' : Env} (h : envLe e e') :
    ∀ (l : List Char) (m : FmtState) (out : List Char),
      interpGo e m l = .ok out → interpGo e' m l = .ok out := by
  intro l
  induction l with
  | nil =>
    intro m out hok
    cases m with
    | text => simpa [interpGo] using hok
    | percent => simp [interpGo] at hok
    | inKey acc => simp [interpGo] at hok
    | conv key => simp [interpGo] at hok
  | cons c r ih =>
    intro m out hok
    cases m with
    | text =>
      by_cases hc : c = '%'
      · simp only [interpGo, if_pos hc] at hok ⊢
        exact ih _ _ hok
      · simp only [interpGo, if_neg hc] at hok ⊢
        cases hrec : interpGo e .text r with
        | error err => rw [hrec] at hok; simp at hok
        | ok l' =>
          rw [hrec] at hok
          rw [ih _ _ hrec]
          simp at hok
          simp [hok]
    | percent =>
      by_cases hc : c = '%'
      · simp only [interpGo, if_pos hc] at hok ⊢
        cases hrec : interpGo e .text r with
        | error err => rw [hrec] at hok; simp at hok
        | ok l' =>
          rw [hrec] at hok
          rw [ih _ _ hrec]
          simp at hok
          simp [hok]
      · by_cases hp : c = '('
        · simp only [interpGo, if_neg hc, if_pos hp] at hok ⊢
          exact ih _ _ hok
        · simp [interpGo, if_neg hc, if_neg hp] at hok
    | inKey acc =>
      by_cases hc : c = ')'
      · simp only [interpGo, if_pos hc] at hok ⊢
        exact ih _ _ hok
      · simp only [interpGo, if_neg hc] at hok ⊢
        exact ih _ _ hok
    | conv key =>
      by_cases hc : c = 's'
      · simp only [interpGo, if_pos hc] at hok ⊢
        cases hkey : dictGet e (String.mk key) with
        | none => rw [hkey] at hok; simp at hok
        | some v =>
          rw [hkey] at hok
          rw [h _ _ hkey]
          cases hrec : interpGo e .text r with
          | error err => rw [hrec] at hok; simp at hok
          | ok l' =>
            rw [hrec] at hok
            rw [ih _ _ hrec]
            simp at hok
            simp [hok]
      · simp [interpGo, if_neg hc] at hok

/-- `interp` version of `interpGo_mono`. -/
theorem interp_mono {e e' : Env} (h : envLe e e') {s out : String}
    (hok : interp e s = .ok out) : interp e' s = .ok out := by
  simp only [interp, Except.map] at hok ⊢
  cases hrec : interpGo e .text s.data with
  | error err => rw [hrec] at hok; simp at hok
  | ok l' =>
    rw [hrec] at hok
    rw [interpGo_mono h _ _ _ hrec]
    simpa using hok

/-- Extending an environment at a key that was unbound, or was already
bound to the written value, extends all lookups. -/
theorem envLe_set {e : Env} {k : String} {v : String}
    (h : dictGet e k = none ∨ dictGet e k = some v) :
    envLe e (dictSet e k v) := by
  intro k' v' hk'
  by_cases hkk : k = k'
  · subst hkk
    rcases h with h | h
    · rw [hk'] at h; cases h
    · rw [hk'] at h
      injection h with h
      rw [h]
      exact dictGet_set_self e k v
  · rw [dictGet_set_ne e v hkk]
    exact hk'

/-- `renderOpt` version of `interp_mono`. -/
theorem renderOpt_mono {e e' : Env} (h : envLe e e') {o out : Option String}
    (hok : renderOpt e o = .ok out) : renderOpt e' o = .ok out := by
  cases o with
  | none => simpa [renderOpt] using hok
  | some s =>
    simp only [renderOpt] at hok ⊢
    cases hrec : interp e s with
    | error err => rw [hrec] at hok; simp at hok
    | ok r =>
      rw [hrec] at hok
      rw [interp_mono h hrec]
      simpa using hok

/-- `renderTemplate` version of `interp_mono`. -/
theorem renderTemplate_mono {e e' : Env} (h : envLe e e') {t out : Template}
    (hok : renderTemplate e t = .ok out) : renderTemplate e' t = .ok out := by
  simp only [renderTemplate] at hok ⊢
  cases h1 : interp e t.local_path with
  | error err => rw [h1] at hok; simp at hok
  | ok lp =>
  rw [h1] at hok
  rw [interp_mono h h1]
  cases h2 : interp e t.remote_path with
  | error err => rw [h2] at hok; simp at hok
  | ok rp =>
  rw [h2] at hok
  rw [interp_mono h h2]
  cases h3 : renderOpt e t.reload_command with
  | error err => rw [h3] at hok; simp at hok
  | ok rc =>
  rw [h3] at hok
  rw [renderOpt_mono h h3]
  cases h4 : renderOpt e t.owner with
  | error err => rw [h4] at hok; simp at hok
  | ok ow =>
  rw [h4] at hok
  rw [renderOpt_mono h h4]
  cases h5 : renderOpt e t.mode with
  | error err => rw [h5] at hok; simp at hok
  | ok md =>
  rw [h5] at hok
  rw [renderOpt_mono h h5]
  exact hok

/-- `get_templates` version of `interp_mono`: resolution of the registry
is unchanged in any extended environment. -/
theorem get_templates_mono {e e' : Env} (h : envLe e e') :
    ∀ {reg out : Registry}, get_templates reg e = .ok out →
      get_templates reg e' = .ok out := by
  intro reg
  induction reg with
  | nil => intro out hok; simpa [get_templates] using hok
  | cons nt rest ih =>
    intro out hok
    obtain ⟨n, t⟩ := nt
    simp only [get_templates] at hok ⊢
    cases h1 : renderTemplate e t with
    | error err => rw [h1] at hok; simp at hok
    | ok d =>
    rw [h1] at hok
    rw [renderTemplate_mono h h1]
    cases h2 : get_templates rest e with
    | error err => rw [h2] at hok; simp at hok
    | ok m =>
    rw [h2] at hok
    rw [ih h2]
    exact hok

/-- On a well-formed template whose every placeholder key is bound,
rendering succeeds and equals the spec-side total rendering
`renderAllPlaceholders`. -/
theorem interpGo_ok_of_keys {e : Env} :
    ∀ (l : List Char) (m : FmtState), wfGo m l = true →
      (∀ k ∈ tmplKeysGo m l, (dictGet e k).isSome = true) →
      interpGo e m l = .ok (renderAllPlaceholders e m l) := by
  intro l
  induction l with
  | nil =>
    intro m hwf _
    cases m with
    | text => rfl
    | percent => simp [wfGo] at hwf
    | inKey acc => simp [wfGo] at hwf
    | conv key => simp [wfGo] at hwf
  | cons c r ih =>
    intro m hwf hk
    cases m with
    | text =>
      by_cases hc : c = '%'
      · simp only [wfGo, if_pos hc] at hwf
        simp only [tmplKeysGo, if_pos hc] at hk
        simp only [interpGo, renderAllPlaceholders, if_pos hc]
        exact ih _ hwf hk
      · simp only [wfGo, if_neg hc] at hwf
        simp only [tmplKeysGo, if_neg hc] at hk
        simp only [interpGo, renderAllPlaceholders, if_neg hc]
        rw [ih _ hwf hk]
        rfl
    | percent =>
      by_cases hc : c = '%'
      · simp only [wfGo, if_pos hc] at hwf
        simp only [tmplKeysGo, if_pos hc] at hk
        simp only [interpGo, renderAllPlaceholders, if_pos hc]
        rw [ih _ hwf hk]
        rfl
      · by_cases hp : c = '('
        · simp only [wfGo, if_neg hc, if_pos hp] at hwf
          simp only [tmplKeysGo, if_neg hc, if_pos hp] at hk
          simp only [interpGo, renderAllPlaceholders, if_neg hc, if_pos hp]
          exact ih _ hwf hk
        · simp [wfGo, hc, hp] at hwf
    | inKey acc =>
      by_cases hc : c = ')'
      · simp only [wfGo, if_pos hc] at hwf
        simp only [tmplKeysGo, if_pos hc] at hk
        simp only [interpGo, renderAllPlaceholders, if_pos hc]
        exact ih _ hwf hk
      · simp only [wfGo, if_neg hc] at hwf
        simp only [tmplKeysGo, if_neg hc] at hk
        simp only [interpGo, renderAllPlaceholders, if_neg hc]
        exact ih _ hwf hk
    | conv key =>
      by_cases hc : c = 's'
      · simp only [wfGo, if_pos hc] at hwf
        simp only [tmplKeysGo, if_pos hc] at hk
        have hkey := hk (String.mk key) (by simp)
        cases hv : dictGet e (String.mk key) with
        | none => rw [hv] at hkey; simp at hkey
        | some v =>
          simp only [interpGo, renderAllPlaceholders, if_pos hc, hv]
          rw [ih _ hwf (fun k hmem => hk k (by simp [hmem]))]
          simp
      · simp [wfGo, hc] at hwf

/-- On a well-formed template with some unbound placeholder key,
rendering fails with a `KeyError` (`missingVariable`) naming an unbound
key. -/
theorem interpGo_missing {e : Env} :
    ∀ (l : List Char) (m : FmtState), wfGo m l = true →
      (∃ k ∈ tmplKeysGo m l, dictGet e k = none) →
      ∃ k, interpGo e m l = .error (.missingVariable k) ∧
        dictGet e k = none := by
  intro l
  induction l with
  | nil =>
    intro m hwf hex
    cases m with
    | text => simp [tmplKeysGo] at hex
    | percent => simp [wfGo] at hwf
    | inKey acc => simp [wfGo] at hwf
    | conv key => simp [wfGo] at hwf
  | cons c r ih =>
    intro m hwf hex
    cases m with
    | text =>
      by_cases hc : c = '%'
      · simp only [wfGo, if_pos hc] at hwf
        simp only [tmplKeysGo, if_pos hc] at hex
        simp only [interpGo, if_pos hc]
        exact ih _ hwf hex
      · simp only [wfGo, if_neg hc] at hwf
        simp only [tmplKeysGo, if_neg hc] at hex
        obtain ⟨k, herr, hkn⟩ := ih _ hwf hex
        exact ⟨k, by simp [interpGo, if_neg hc, herr], hkn⟩
    | percent =>
      by_cases hc : c = '%'
      · simp only [wfGo, if_pos hc] at hwf
        simp only [tmplKeysGo, if_pos hc] at hex
        obtain ⟨k, herr, hkn⟩ := ih _ hwf hex
        exact ⟨k, by simp [interpGo, if_pos hc, herr], hkn⟩
      · by_cases hp : c = '('
        · simp only [wfGo, if_neg hc, if_pos hp] at hwf
          simp only [tmplKeysGo, if_neg hc, if_pos hp] at hex
          simp only [interpGo, if_neg hc, if_pos hp]
          exact ih _ hwf hex
        · simp [wfGo, hc, hp] at hwf
    | inKey acc =>
      by_cases hc : c = ')'
      · simp only [wfGo, if_pos hc] at hwf
        simp only [tmplKeysGo, if_pos hc] at hex
        simp only [interpGo, if_pos hc]
        exact ih _ hwf hex
      · simp only [wfGo, if_neg hc] at hwf
        simp only [tmplKeysGo, if_neg hc] at hex
        simp only [interpGo, if_neg hc]
        exact ih _ hwf hex
    | conv key =>
      by_cases hc : c = 's'
      · simp only [wfGo, if_pos hc] at hwf
        simp only [tmplKeysGo, if_pos hc] at hex
        cases hv : dictGet e (String.mk key) with
        | none => exact ⟨String.mk key, by simp [interpGo, if_pos hc, hv], hv⟩
        | some v =>
          obtain ⟨k, hmem, hkn⟩ := hex
          rcases List.mem_cons.mp hmem with hhd | htl
          · rw [hhd] at hkn; rw [hkn] at hv; cases hv
          · obtain ⟨k', herr, hk'⟩ := ih _ hwf ⟨k, htl, hkn⟩
            exact ⟨k', by simp [interpGo, if_pos hc, hv, herr], hk'⟩
      · simp [wfGo, hc] at hwf

theorem doReload_state {w : World} {t : Template} {ex : Bool}
    {st : SyncState} {tr : List Op} : (doReload w t ex st tr).state = st := by
  unfold doReload
  cases t.reload_command with
  | none => rfl
  | some c => by_cases h : w.reloadOk <;> simp [h]

theorem doChmod_state {w : World} {t : Template} {ex : Bool}
    {st : SyncState} {tr : List Op} : (doChmod w t ex st tr).state = st := by
  unfold doChmod
  cases t.mode with
  | none => exact doReload_state
  | some m =>
    by_cases h : w.chmodOk
    · simp only [if_pos h]; exact doReload_state
    · simp [h]

theorem doChown_state {w : World} {t : Template} {ex : Bool}
    {st : SyncState} {tr : List Op} : (doChown w t ex st tr).state = st := by
  unfold doChown
  cases t.owner with
  | none => exact doChmod_state
  | some o =>
    by_cases h : w.chownOk
    · simp only [if_pos h]; exact doChmod_state
    · simp [h]

/-- With every privileged command succeeding, the chown/chmod/reload tail
issues exactly the configured operations in order and reports `Uploaded`
or `Created` according to prior existence. -/
theorem doChown_spec {w : World} {t : Template} {ex : Bool} {st : SyncState}
    {tr : List Op} (hco : w.chownOk = true) (hcm : w.chmodOk = true)
    (hr : w.reloadOk = true) :
    doChown w t ex st tr =
      ⟨.ok (if ex then .Uploaded else .Created), st,
       tr ++ (t.owner.elim [] (fun o => [Op.chown o t.remote_path]))
          ++ (t.mode.elim [] (fun m => [Op.chmod m t.remote_path]))
          ++ (t.reload_command.elim [] (fun c => [Op.reload c]))⟩ := by
  unfold doChown doChmod doReload
  cases t.owner <;> cases t.mode <;> cases t.reload_command <;>
    simp [hco, hcm, hr, List.append_assoc]

theorem doReload_countP {w : World} {t : Template} {ex : Bool}
    {st : SyncState} {tr : List Op} (p : Op → Bool)
    (hrl : ∀ c, p (.reload c) = false) :
    ((doReload w t ex st tr).trace).countP p = tr.countP p := by
  unfold doReload
  cases t.reload_command with
  | none => rfl
  | some c =>
    by_cases h : w.reloadOk <;>
      simp [h, List.countP_append, List.countP_cons, hrl]

theorem doChmod_countP {w : World} {t : Template} {ex : Bool}
    {st : SyncState} {tr : List Op} (p : Op → Bool)
    (hcm : ∀ m path, p (.chmod m path) = false)
    (hrl : ∀ c, p (.reload c) = false) :
    ((doChmod w t ex st tr).trace).countP p = tr.countP p := by
  unfold doChmod
  cases t.mode with
  | none => exact doReload_countP p hrl
  | some m =>
    by_cases h : w.chmodOk
    · simp only [if_pos h]
      rw [doReload_countP p hrl]
      simp [List.countP_append, List.countP_cons, hcm]
    · simp [h, List.countP_append, List.countP_cons, hcm]

theorem doChown_countP {w : World} {t : Template} {ex : Bool}
    {st : SyncState} {tr : List Op} (p : Op → Bool)
    (hcw : ∀ o path, p (.chown o path) = false)
    (hcm : ∀ m path, p (.chmod m path) = false)
    (hrl : ∀ c, p (.reload c) = false) :
    ((doChown w t ex st tr).trace).countP p = tr.countP p := by
  unfold doChown
  cases t.owner with
  | none => exact doChmod_countP p hcm hrl
  | some o =>
    by_cases h : w.chownOk
    · simp only [if_pos h]
      rw [doChmod_countP p hcm hrl]
      simp [List.countP_append, List.countP_cons, hcw]
    · simp [h, List.countP_append, List.countP_cons, hcw]

/-- The chown/chmod/reload tail never reports `Unchanged`. -/
theorem doChown_ne_unchanged {w : World} {t : Template} {ex : Bool}
    {st : SyncState} {tr : List Op} :
    (doChown w t ex st tr).result ≠ .ok .Unchanged := by
  unfold doChown doChmod doReload
  cases t.owner <;> cases t.mode <;> cases t.reload_command <;>
    by_cases h1 : w.chownOk <;> by_cases h2 : w.chmodOk <;>
    by_cases h3 : w.reloadOk <;> cases ex <;> simp [h1, h2, h3]

/-- `upload_template_and_reload` under successful resolution of the
registry and template name. -/
theorem utr_eq {w : World} {reg rendered : Registry} {name : String}
    {st : SyncState} {t : Template}
    (hg : get_templates reg st.env = .ok rendered)
    (hn : dictGet rendered name = some t) :
    upload_template_and_reload w reg name st = syncCore w t st := by
  unfold upload_template_and_reload
  simp only [hg, hn]

/-- `syncCore` on equal normalized contents: the `Unchanged` early
return. -/
theorem syncCore_unchanged {w : World} {t : Template} {st : SyncState}
    {raw d : String}
    (hl : dictGet w.localFiles t.local_path = some raw)
    (hint : interp (envAfter w st.env raw) raw = .ok d)
    (heq : clean ((dictGet st.remote t.remote_path).getD "") = clean d) :
    syncCore w t st =
      ⟨.ok .Unchanged, { env := envAfter w st.env raw, remote := st.remote },
       readTrace t st ++ passTrace raw⟩ := by
  unfold syncCore
  simp only [hl, hint]
  rw [if_pos heq]

/-- `syncCore` on differing normalized contents: upload then the
chown/chmod/reload tail. -/
theorem syncCore_changed {w : World} {t : Template} {st : SyncState}
    {raw d : String}
    (hl : dictGet w.localFiles t.local_path = some raw)
    (hint : interp (envAfter w st.env raw) raw = .ok d)
    (hne : clean ((dictGet st.remote t.remote_path).getD "") ≠ clean d) :
    syncCore w t st =
      doChown w t ((dictGet st.remote t.remote_path).isSome)
        { env := envAfter w st.env raw,
          remote := dictSet st.remote t.remote_path d }
        (readTrace t st ++ passTrace raw ++ [Op.upload t.remote_path d]) := by
  unfold syncCore
  simp only [hl, hint]
  rw [if_neg hne]

theorem readTrace_countP (t : Template) (st : SyncState) (p : Op → Bool)
    (he : ∀ path, p (.existsCheck path) = false)
    (hcat : ∀ path, p (.catFile path) = false) :
    (readTrace t st).countP p = 0 := by
  unfold readTrace
  by_cases h : (dictGet st.remote t.remote_path).isSome <;>
    simp [h, List.countP_cons, he, hcat]

theorem passTrace_countP (raw : String) (p : Op → Bool)
    (hdb : p .computeDbPass = false) : (passTrace raw).countP p = 0 := by
  unfold passTrace
  by_cases h : hasSubstr dbMarker raw.data <;>
    simp [h, List.countP_cons, hdb]

theorem passTrace_countP_db (raw : String) :
    (passTrace raw).countP isDbPassComputation =
      if hasSubstr dbMarker raw.data then 1 else 0 := by
  unfold passTrace
  by_cases h : hasSubstr dbMarker raw.data <;>
    simp [h, List.countP_cons, isDbPassComputation]

/-- The lazy derivation step only extends the environment, provided
`db_pass` was unbound or already bound to the derived value. -/
theorem envLe_envAfter {w : World} {e : Env} {raw : String}
    (hdb : dictGet e "db_pass" = none ∨
           dictGet e "db_pass" = some w.dbPassValue) :
    envLe e (envAfter w e raw) := by
  unfold envAfter
  by_cases h : hasSubstr dbMarker raw.data
  · rw [if_pos h]; exact envLe_set hdb
  · rw [if_neg h]; exact envLe_refl e

/-- After the lazy derivation step, `db_pass` is still unbound or bound to
the derived value. -/
theorem dictGet_envAfter_db {w : World} {e : Env} {raw : String}
    (hdb : dictGet e "db_pass" = none ∨
           dictGet e "db_pass" = some w.dbPassValue) :
    dictGet (envAfter w e raw) "db_pass" = none ∨
      dictGet (envAfter w e raw) "db_pass" = some w.dbPassValue := by
  unfold envAfter
  by_cases h : hasSubstr dbMarker raw.data
  · rw [if_pos h]
    exact Or.inr (dictGet_set_self e "db_pass" w.dbPassValue)
  · rw [if_neg h]; exact hdb

/-- C2: `sync` compares the rendered local content and the remote content
after removing every newline and carriage-return character and trimming
outer whitespace (`clean`), and judges them equal exactly when the
normalized strings are equal; remote `"a\r\nb"` versus local rendered
`"a\nb"` is judged equal (no upload), while remote `"a\nb"` versus local
`"a\nb\nc"` is judged different (upload occurs). -/
theorem claim2_change_detection {w : World} {reg rendered : Registry}
    {name : String} {st : SyncState} {t : Template} {raw d : String}
    (hg : get_templates reg st.env = .ok rendered)
    (hn : dictGet rendered name = some t)
    (hl : dictGet w.localFiles t.local_path = some raw)
    (hint : interp (envAfter w st.env raw) raw = .ok d) :
    ((upload_template_and_reload w reg name st).result = .ok .Unchanged ↔
      clean ((dictGet st.remote t.remote_path).getD "") = clean d) ∧
    upload_template_and_reload
        { localFiles := [("t.conf", "a\nb")], dbPassValue := "pw" }
        [("t", { local_path := "t.conf", remote_path := "/etc/t" })] "t"
        { env := [], remote := [("/etc/t", "a\r\nb")] } =
      ⟨.ok .Unchanged, { env := [], remote := [("/etc/t", "a\r\nb")] },
       [.existsCheck "/etc/t", .catFile "/etc/t"]⟩ ∧
    upload_template_and_reload
        { localFiles := [("t.conf", "a\nb\nc")], dbPassValue := "pw" }
        [("t", { local_path := "t.conf", remote_path := "/etc/t" })] "t"
        { env := [], remote := [("/etc/t", "a\nb")] } =
      ⟨.ok .Uploaded,
       { env := [],
         remote := [("/etc/t", "a\nb\nc"), ("/etc/t", "a\nb")] },
       [.existsCheck "/etc/t", .catFile "/etc/t",
        .upload "/etc/t" "a\nb\nc"]⟩ := by
  refine ⟨⟨?_, ?_⟩, by decide, by decide⟩
  · intro hres
    by_contra hne
    rw [utr_eq hg hn, syncCore_changed hl hint hne] at hres
    exact doChown_ne_unchanged hres
  · intro heq
    rw [utr_eq hg hn, syncCore_unchanged hl hint heq]

/-- C2 witness: the change-detection characterization instantiated on a
concrete unchanged scenario. -/
theorem claim2_change_detection_witness :
    (upload_template_and_reload
        { localFiles := [("t.conf", "a\nb")], dbPassValue := "pw" }
        [("t", { local_path := "t.conf", remote_path := "/etc/t" })] "t"
        { env := [], remote := [("/etc/t", "a\r\nb")] }).result =
      .ok .Unchanged ↔
    clean ((dictGet ([("/etc/t", "a\r\nb")] : RemoteFs) "/etc/t").getD "") =
      clean "a\nb" :=
  (@claim2_change_detection
    { localFiles := [("t.conf", "a\nb")], dbPassValue := "pw" }
    [("t", { local_path := "t.conf", remote_path := "/etc/t" })]
    [("t", { local_path := "t.conf", remote_path := "/etc/t" })]
    "t" { env := [], remote := [("/etc/t", "a\r\nb")] }
    { local_path := "t.conf", remote_path := "/etc/t" } "a\nb" "a\nb"
    (by decide) (by decide) (by decide) (by decide)).1

/-- C3: a completed `sync` returns one of the three `SyncResult` values;
when the normalized contents differ it reports `Uploaded` when the remote
path existed before the call and `Created` when it did not. -/
theorem claim3_result_classification {w : World} {reg rendered : Registry}
    {name : String} {st : SyncState} {t : Template} {raw d : String}
    (hg : get_templates reg st.env = .ok rendered)
    (hn : dictGet rendered name = some t)
    (hl : dictGet w.localFiles t.local_path = some raw)
    (hint : interp (envAfter w st.env raw) raw = .ok d)
    (hne : clean ((dictGet st.remote t.remote_path).getD "") ≠ clean d)
    (hco : w.chownOk = true) (hcm : w.chmodOk = true)
    (hr : w.reloadOk = true) :
    (upload_template_and_reload w reg name st).result =
      .ok (if (dictGet st.remote t.remote_path).isSome then .Uploaded
           else .Created) ∧
    (∀ res : SyncResult,
      res = .Unchanged ∨ res = .Uploaded ∨ res = .Created) := by
  constructor
  · rw [utr_eq hg hn, syncCore_changed hl hint hne, doChown_spec hco hcm hr]
  · intro res
    cases res <;> simp

/-- C3 witness: result classification on a concrete first-time deploy. -/
theorem claim3_result_classification_witness :
    (upload_template_and_reload
        { localFiles := [("t.conf", "hello")], dbPassValue := "pw" }
        [("t", { local_path := "t.conf", remote_path := "/etc/t" })] "t"
        { env := [], remote := [] }).result =
      .ok (if (dictGet ([] : RemoteFs) "/etc/t").isSome then .Uploaded
           else .Created) :=
  (@claim3_result_classification
    { localFiles := [("t.conf", "hello")], dbPassValue := "pw" }
    [("t", { local_path := "t.conf", remote_path := "/etc/t" })]
    [("t", { local_path := "t.conf", remote_path := "/etc/t" })]
    "t" { env := [], remote := [] }
    { local_path := "t.conf", remote_path := "/etc/t" } "hello" "hello"
    (by decide) (by decide) (by decide) (by decide) (by decide)
    rfl rfl rfl).1

/-- C4: with a configured reload command and succeeding privileged
commands, a single `sync` call executes the reload exactly once when the
normalized contents differ, and zero times (result `Unchanged`) when they
are equal. -/
theorem claim4_reload_firing {w : World} {reg rendered : Registry}
    {name : String} {st : SyncState} {t : Template} {raw d cmd : String}
    (hg : get_templates reg st.env = .ok rendered)
    (hn : dictGet rendered name = some t)
    (hl : dictGet w.localFiles t.local_path = some raw)
    (hint : interp (envAfter w st.env raw) raw = .ok d)
    (hrc : t.reload_command = some cmd)
    (hco : w.chownOk = true) (hcm : w.chmodOk = true)
    (hr : w.reloadOk = true) :
    (clean ((dictGet st.remote t.remote_path).getD "") = clean d →
      (upload_template_and_reload w reg name st).result = .ok .Unchanged ∧
      (upload_template_and_reload w reg name st).trace.countP isReloadOp
        = 0) ∧
    (clean ((dictGet st.remote t.remote_path).getD "") ≠ clean d →
      (upload_template_and_reload w reg name st).trace.countP isReloadOp
        = 1) := by
  have hrd := readTrace_countP t st isReloadOp (fun _ => rfl) (fun _ => rfl)
  have hps := passTrace_countP raw isReloadOp rfl
  constructor
  · intro heq
    rw [utr_eq hg hn, syncCore_unchanged hl hint heq]
    refine ⟨rfl, ?_⟩
    simp only [List.countP_append]
    rw [hrd, hps]
  · intro hne
    rw [utr_eq hg hn, syncCore_changed hl hint hne, doChown_spec hco hcm hr]
    rw [hrc]
    cases t.owner <;> cases t.mode <;>
      simp [List.countP_append, List.countP_cons, isReloadOp, hrd, hps]

/-- C4 witness: reload firing on a concrete changed scenario. -/
theorem claim4_reload_firing_witness :
    (upload_template_and_reload
        { localFiles := [("t.conf", "hello")], dbPassValue := "pw" }
        [("t", { local_path := "t.conf", remote_path := "/etc/t",
                 reload_command := some "service t restart" })] "t"
        { env := [], remote := [] }).trace.countP isReloadOp = 1 :=
  (@claim4_reload_firing
    { localFiles := [("t.conf", "hello")], dbPassValue := "pw" }
    [("t", { local_path := "t.conf", remote_path := "/etc/t",
             reload_command := some "service t restart" })]
    [("t", { local_path := "t.conf", remote_path := "/etc/t",
             reload_command := some "service t restart" })]
    "t" { env := [], remote := [] }
    { local_path := "t.conf", remote_path := "/etc/t",
      reload_command := some "service t restart" }
    "hello" "hello" "service t restart"
    (by decide) (by decide) (by decide) (by decide)
    rfl rfl rfl rfl).2 (by decide)

/-- C10 (implicit): the normalization erases in-content line breaks, so
any remote/local pair whose contents agree after deleting every newline
and carriage return and trimming outer whitespace is judged equal —
`sync` returns `Unchanged` and uploads nothing — even when the byte
contents differ, as for remote `"ab"` versus local rendered `"a\nb"`. -/
theorem claim10_normalization_false_negative {w : World}
    {reg rendered : Registry} {name : String} {st : SyncState}
    {t : Template} {raw d : String}
    (hg : get_templates reg st.env = .ok rendered)
    (hn : dictGet rendered name = some t)
    (hl : dictGet w.localFiles t.local_path = some raw)
    (hint : interp (envAfter w st.env raw) raw = .ok d)
    (heq : clean ((dictGet st.remote t.remote_path).getD "") = clean d) :
    (upload_template_and_reload w reg name st).result = .ok .Unchanged ∧
    (upload_template_and_reload w reg name st).trace.countP isUploadOp
      = 0 ∧
    upload_template_and_reload
        { localFiles := [("t.conf", "a\nb")], dbPassValue := "pw" }
        [("t", { local_path := "t.conf", remote_path := "/etc/t" })] "t"
        { env := [], remote := [("/etc/t", "ab")] } =
      ⟨.ok .Unchanged, { env := [], remote := [("/etc/t", "ab")] },
       [.existsCheck "/etc/t", .catFile "/etc/t"]⟩ := by
  rw [utr_eq hg hn, syncCore_unchanged hl hint heq]
  refine ⟨rfl, ?_, by decide⟩
  simp only [List.countP_append]
  rw [readTrace_countP t st isUploadOp (fun _ => rfl) (fun _ => rfl),
    passTrace_countP raw isUploadOp rfl]

/-- C10 witness: the false-negative behavior at remote `"ab"` versus
local `"a\nb"`. -/
theorem claim10_normalization_false_negative_witness :
    (upload_template_and_reload
        { localFiles := [("t.conf", "a\nb")], dbPassValue := "pw" }
        [("t", { local_path := "t.conf", remote_path := "/etc/t" })] "t"
        { env := [], remote := [("/etc/t", "ab")] }).result =
      .ok .Unchanged :=
  (@claim10_normalization_false_negative
    { localFiles := [("t.conf", "a\nb")], dbPassValue := "pw" }
    [("t", { local_path := "t.conf", remote_path := "/etc/t" })]
    [("t", { local_path := "t.conf", remote_path := "/etc/t" })]
    "t" { env := [], remote := [("/etc/t", "ab")] }
    { local_path := "t.conf", remote_path := "/etc/t" } "a\nb" "a\nb"
    (by decide) (by decide) (by decide) (by decide) (by decide)).1

/-- C7 counterexample: with the remote path absent and a local template
rendering to the empty string, `sync` performs no upload and returns
`Unchanged`, not `Created` — refuting the claim that the upload occurs in
the remote-absent case even when the local render is empty. -/
theorem claim7_counterexample :
    upload_template_and_reload
        { localFiles := [("t.conf", "")], dbPassValue := "pw" }
        [("t", { local_path := "t.conf", remote_path := "/etc/t" })] "t"
        { env := [], remote := [] } =
      ⟨.ok .Unchanged, { env := [], remote := [] },
       [.existsCheck "/etc/t"]⟩ := by decide

/-- C7 (amended): when the remote path does not exist, `sync` treats the
remote content as the empty string; it uploads and returns `Created` when
the rendered local content normalizes to a nonempty string, but when the
local render normalizes to the empty string it returns `Unchanged` and
performs no upload. -/
theorem claim7_first_deploy {w : World} {reg rendered : Registry}
    {name : String} {st : SyncState} {t : Template} {raw d : String}
    (hg : get_templates reg st.env = .ok rendered)
    (hn : dictGet rendered name = some t)
    (hl : dictGet w.localFiles t.local_path = some raw)
    (hint : interp (envAfter w st.env raw) raw = .ok d)
    (habs : dictGet st.remote t.remote_path = none)
    (hco : w.chownOk = true) (hcm : w.chmodOk = true)
    (hr : w.reloadOk = true) :
    (dictGet st.remote t.remote_path).getD "" = "" ∧
    (clean d ≠ "" →
      (upload_template_and_reload w reg name st).result = .ok .Created ∧
      Op.upload t.remote_path d ∈
        (upload_template_and_reload w reg name st).trace) ∧
    (clean d = "" →
      (upload_template_and_reload w reg name st).result = .ok .Unchanged ∧
      (upload_template_and_reload w reg name st).trace.countP isUploadOp
        = 0) := by
  have hrd : (dictGet st.remote t.remote_path).getD "" = "" := by
    rw [habs]; rfl
  have hclempty : clean "" = "" := rfl
  refine ⟨hrd, ?_, ?_⟩
  · intro hne
    have hne' : clean ((dictGet st.remote t.remote_path).getD "") ≠
        clean d := by
      rw [hrd, hclempty]
      exact fun h => hne h.symm
    rw [utr_eq hg hn, syncCore_changed hl hint hne', doChown_spec hco hcm hr]
    constructor
    · simp [habs]
    · simp [List.mem_append]
  · intro heqd
    have heq' : clean ((dictGet st.remote t.remote_path).getD "") =
        clean d := by
      rw [hrd, hclempty, heqd]
    rw [utr_eq hg hn, syncCore_unchanged hl hint heq']
    refine ⟨rfl, ?_⟩
    simp only [List.countP_append]
    rw [readTrace_countP t st isUploadOp (fun _ => rfl) (fun _ => rfl),
      passTrace_countP raw isUploadOp rfl]

/-- C7 witness: first-time deploy with a nonempty render uploads and
reports `Created`. -/
theorem claim7_first_deploy_witness :
    (upload_template_and_reload
        { localFiles := [("t.conf", "hi")], dbPassValue := "pw" }
        [("t", { local_path := "t.conf", remote_path := "/etc/t" })] "t"
        { env := [], remote := [] }).result = .ok .Created :=
  ((@claim7_first_deploy
    { localFiles := [("t.conf", "hi")], dbPassValue := "pw" }
    [("t", { local_path := "t.conf", remote_path := "/etc/t" })]
    [("t", { local_path := "t.conf", remote_path := "/etc/t" })]
    "t" { env := [], remote := [] }
    { local_path := "t.conf", remote_path := "/etc/t" } "hi" "hi"
    (by decide) (by decide) (by decide) (by decide) (by decide)
    rfl rfl rfl).2.1 (by decide)).1

/-- C5 counterexample: after a first `sync` whose template contains the
`"%(db_pass)s"` marker, the derived secret is cached in the environment —
yet a second `sync` call in the same run performs the derivation again,
refuting "once computed it is never recomputed by a later sync call". -/
theorem claim5_counterexample :
    dictGet (upload_template_and_reload
        { localFiles := [("t.conf", "pw=%(db_pass)s")], dbPassValue := "s3" }
        [("t", { local_path := "t.conf", remote_path := "/etc/t" })] "t"
        { env := [], remote := [] }).state.env "db_pass" = some "s3" ∧
    (upload_template_and_reload
        { localFiles := [("t.conf", "pw=%(db_pass)s")], dbPassValue := "s3" }
        [("t", { local_path := "t.conf", remote_path := "/etc/t" })] "t"
        (upload_template_and_reload
          { localFiles := [("t.conf", "pw=%(db_pass)s")],
            dbPassValue := "s3" }
          [("t", { local_path := "t.conf", remote_path := "/etc/t" })] "t"
          { env := [], remote := [] }).state).trace.countP
      isDbPassComputation = 1 := by decide

/-- C5 (amended): during `sync` the derived secret is computed exactly
when the raw local template content contains the `"%(db_pass)s"` marker,
and when computed it is stored in the environment under `db_pass`; it is
however recomputed by every later sync call whose template contains the
marker, the cached value notwithstanding. -/
theorem claim5_lazy_derivation {w : World} {reg rendered : Registry}
    {name : String} {st : SyncState} {t : Template} {raw : String}
    (hg : get_templates reg st.env = .ok rendered)
    (hn : dictGet rendered name = some t)
    (hl : dictGet w.localFiles t.local_path = some raw) :
    (upload_template_and_reload w reg name st).trace.countP
      isDbPassComputation =
      (if hasSubstr dbMarker raw.data then 1 else 0) ∧
    (hasSubstr dbMarker raw.data = true →
      dictGet (upload_template_and_reload w reg name st).state.env
        "db_pass" = some w.dbPassValue) ∧
    (hasSubstr dbMarker raw.data = false →
      (upload_template_and_reload w reg name st).state.env = st.env) := by
  rw [utr_eq hg hn]
  unfold syncCore
  simp only [hl]
  cases hi : interp (envAfter w st.env raw) raw with
  | error e =>
    simp only [hi]
    refine ⟨?_, ?_, ?_⟩
    · simp only [List.countP_append]
      rw [readTrace_countP t st isDbPassComputation
          (fun _ => rfl) (fun _ => rfl), passTrace_countP_db raw]
      exact Nat.zero_add _
    · intro hm
      simp [envAfter, hm, dictGet_set_self]
    · intro hm
      simp [envAfter, hm]
  | ok d =>
    simp only [hi]
    by_cases hcl : clean ((dictGet st.remote t.remote_path).getD "") =
        clean d
    · rw [if_pos hcl]
      refine ⟨?_, ?_, ?_⟩
      · simp only [List.countP_append]
        rw [readTrace_countP t st isDbPassComputation
            (fun _ => rfl) (fun _ => rfl), passTrace_countP_db raw]
        exact Nat.zero_add _
      · intro hm
        simp [envAfter, hm, dictGet_set_self]
      · intro hm
        simp [envAfter, hm]
    · rw [if_neg hcl]
      refine ⟨?_, ?_, ?_⟩
      · rw [doChown_countP isDbPassComputation (fun _ _ => rfl)
          (fun _ _ => rfl) (fun _ => rfl)]
        simp only [List.countP_append]
        rw [readTrace_countP t st isDbPassComputation
            (fun _ => rfl) (fun _ => rfl), passTrace_countP_db raw]
        simp [List.countP_cons, isDbPassComputation]
      · intro hm
        rw [doChown_state]
        simp [envAfter, hm, dictGet_set_self]
      · intro hm
        rw [doChown_state]
        simp [envAfter, hm]

/-- C5 witness: the amended derivation rule on a concrete marker-bearing
template. -/
theorem claim5_lazy_derivation_witness :
    (upload_template_and_reload
        { localFiles := [("t.conf", "pw=%(db_pass)s")], dbPassValue := "s3" }
        [("t", { local_path := "t.conf", remote_path := "/etc/t" })] "t"
        { env := [], remote := [] }).trace.countP isDbPassComputation =
      (if hasSubstr dbMarker ("pw=%(db_pass)s" : String).data then 1
       else 0) :=
  (@claim5_lazy_derivation
    { localFiles := [("t.conf", "pw=%(db_pass)s")], dbPassValue := "s3" }
    [("t", { local_path := "t.conf", remote_path := "/etc/t" })]
    [("t", { local_path := "t.conf", remote_path := "/etc/t" })]
    "t" { env := [], remote := [] }
    { local_path := "t.conf", remote_path := "/etc/t" } "pw=%(db_pass)s"
    (by decide) (by decide) (by decide)).1

/-- C8: with both an owner and a mode configured, `sync` issues no chown
and no chmod when the normalized contents are equal; when they differ
(and the privileged commands succeed) the chown and the chmod are issued
directly after the upload, before any reload; and whenever the contents
differ the uploaded content is in place in the final remote state, so a
chown or chmod failure never undoes the upload. -/
theorem claim8_owner_mode {w : World} {reg rendered : Registry}
    {name : String} {st : SyncState} {t : Template} {raw d o m : String}
    (hg : get_templates reg st.env = .ok rendered)
    (hn : dictGet rendered name = some t)
    (hl : dictGet w.localFiles t.local_path = some raw)
    (hint : interp (envAfter w st.env raw) raw = .ok d)
    (ho : t.owner = some o) (hm : t.mode = some m) :
    (clean ((dictGet st.remote t.remote_path).getD "") = clean d →
      (upload_template_and_reload w reg name st).trace.countP isChownOp
        = 0 ∧
      (upload_template_and_reload w reg name st).trace.countP isChmodOp
        = 0) ∧
    (clean ((dictGet st.remote t.remote_path).getD "") ≠ clean d →
      w.chownOk = true → w.chmodOk = true → w.reloadOk = true →
      (upload_template_and_reload w reg name st).trace =
        readTrace t st ++ passTrace raw ++
          [Op.upload t.remote_path d, Op.chown o t.remote_path,
           Op.chmod m t.remote_path] ++
          t.reload_command.elim [] (fun c => [Op.reload c])) ∧
    (clean ((dictGet st.remote t.remote_path).getD "") ≠ clean d →
      dictGet (upload_template_and_reload w reg name st).state.remote
        t.remote_path = some d) := by
  refine ⟨?_, ?_, ?_⟩
  · intro heq
    rw [utr_eq hg hn, syncCore_unchanged hl hint heq]
    constructor
    · simp only [List.countP_append]
      rw [readTrace_countP t st isChownOp (fun _ => rfl) (fun _ => rfl),
        passTrace_countP raw isChownOp rfl]
    · simp only [List.countP_append]
      rw [readTrace_countP t st isChmodOp (fun _ => rfl) (fun _ => rfl),
        passTrace_countP raw isChmodOp rfl]
  · intro hne hco hcm hr
    rw [utr_eq hg hn, syncCore_changed hl hint hne,
      doChown_spec hco hcm hr, ho, hm]
    simp [List.append_assoc]
  · intro hne
    rw [utr_eq hg hn, syncCore_changed hl hint hne]
    rw [doChown_state]
    exact dictGet_set_self st.remote t.remote_path d

/-- C8 witness: owner and mode application on a concrete changed
scenario. -/
theorem claim8_owner_mode_witness :
    (upload_template_and_reload
        { localFiles := [("t.conf", "hello")], dbPassValue := "pw" }
        [("t", { local_path := "t.conf", remote_path := "/etc/t",
                 owner := some "www-data", mode := some "640" })] "t"
        { env := [], remote := [] }).trace =
      readTrace { local_path := "t.conf", remote_path := "/etc/t",
                  owner := some "www-data", mode := some "640" }
          { env := [], remote := [] } ++
        passTrace "hello" ++
        [Op.upload "/etc/t" "hello", Op.chown "www-data" "/etc/t",
         Op.chmod "640" "/etc/t"] ++
        (Option.elim (none : Option String) []
          (fun c => [Op.reload c])) :=
  (@claim8_owner_mode
    { localFiles := [("t.conf", "hello")], dbPassValue := "pw" }
    [("t", { local_path := "t.conf", remote_path := "/etc/t",
             owner := some "www-data", mode := some "640" })]
    [("t", { local_path := "t.conf", remote_path := "/etc/t",
             owner := some "www-data", mode := some "640" })]
    "t" { env := [], remote := [] }
    { local_path := "t.conf", remote_path := "/etc/t",
      owner := some "www-data", mode := some "640" }
    "hello" "hello" "www-data" "640"
    (by decide) (by decide) (by decide) (by decide) rfl rfl).2.1
    (by decide) rfl rfl rfl

/-- C6: rendering a string against the environment (the engine behind
both descriptor resolution in `get_templates` and local-template
rendering) fails with `missingVariable` naming an unbound key whenever
some `%(key)s` placeholder has no matching environment key — never
silently leaving placeholder text — and when every placeholder key is
bound it succeeds with every occurrence replaced by the corresponding
environment value (`renderAllPlaceholders`). -/
theorem claim6_missing_variable (e : Env) (s : String)
    (hwf : wfGo .text s.data = true) :
    ((∃ k ∈ tmplKeysGo .text s.data, dictGet e k = none) →
      ∃ k, interp e s = .error (.missingVariable k) ∧ dictGet e k = none) ∧
    ((∀ k ∈ tmplKeysGo .text s.data, (dictGet e k).isSome = true) →
      interp e s =
        .ok (String.mk (renderAllPlaceholders e .text s.data))) := by
  constructor
  · intro hex
    obtain ⟨k, herr, hkn⟩ := interpGo_missing s.data .text hwf hex
    refine ⟨k, ?_, hkn⟩
    simp [interp, herr]
  · intro hall
    simp [interp, interpGo_ok_of_keys s.data .text hwf hall]

/-- C6 witness: substitution of a bound placeholder on a concrete
template. -/
theorem claim6_missing_variable_witness :
    interp [("user", "bob")] "u=%(user)s" =
      .ok (String.mk (renderAllPlaceholders [("user", "bob")] .text
        ("u=%(user)s" : String).data)) :=
  (claim6_missing_variable [("user", "bob")] "u=%(user)s" (by decide)).2
    (by decide)

/-- C9: a successful `deploy` first syncs every registered template, then
records the pre-pull revision into the remote marker, then pulls, then
restarts — so the recorded marker names the revision that was checked out
before the pull, and `rollback` afterwards checks exactly that revision
out. -/
theorem claim9_deploy_ordering {w : World} {reg rendered : Registry}
    {ds ds' : DeployState}
    (hg : get_templates reg ds.sync.env = .ok rendered)
    (hok : (deploy w reg ds).1 = .ok ds') :
    ∃ (str : List Op) (st' : SyncState),
      syncAll w reg (rendered.map Prod.fst) ds.sync = (.ok st', str) ∧
      (deploy w reg ds).2 =
        str.map DeployOp.tmplOp ++
          [.recordCommit ds.repo.head, .gitPull] ++ restart ds'.repo ∧
      ds'.repo.lastCommit = some ds.repo.head ∧
      ds'.repo.head = ds.repo.originHead ∧
      (rollback ds').1 =
        .ok { ds' with repo := { ds'.repo with head := ds.repo.head } } ∧
      (rollback ds').2 =
        .gitCheckout ds.repo.head ::
          restart { ds'.repo with head := ds.repo.head } := by
  unfold deploy at hok ⊢
  simp only [hg] at hok ⊢
  rcases hsa : syncAll w reg (rendered.map Prod.fst) ds.sync with ⟨res, tr⟩
  simp only [hsa] at hok ⊢
  cases res with
  | error e => simp at hok
  | ok st' =>
    simp only at hok
    injection hok with hok
    subst hok
    refine ⟨tr, st', rfl, rfl, rfl, rfl, ?_, ?_⟩
    · unfold rollback
      simp
    · unfold rollback
      simp

/-- C9 witness: deploy ordering and rollback on a concrete state with an
empty registry. -/
theorem claim9_deploy_ordering_witness :
    ∃ (str : List Op) (st' : SyncState),
      syncAll { localFiles := [], dbPassValue := "pw" } [] []
          { env := [], remote := [] } = (.ok st', str) ∧
      (deploy { localFiles := [], dbPassValue := "pw" } []
          { sync := { env := [], remote := [] },
            repo := { head := 5, originHead := 7, lastCommit := none,
                      nginxPidExists := false } }).2 =
        str.map DeployOp.tmplOp ++
          [.recordCommit 5, .gitPull] ++
          restart { head := 7, originHead := 7, lastCommit := some 5,
                    nginxPidExists := false } ∧
      ({ head := 7, originHead := 7, lastCommit := some 5,
         nginxPidExists := false } : RepoState).lastCommit = some 5 ∧
      ({ head := 7, originHead := 7, lastCommit := some 5,
         nginxPidExists := false } : RepoState).head = 7 ∧
      (rollback
          { sync := { env := [], remote := [] },
            repo := { head := 7, originHead := 7, lastCommit := some 5,
                      nginxPidExists := false } }).1 =
        .ok { sync := { env := [], remote := [] },
              repo := { head := 5, originHead := 7, lastCommit := some 5,
                        nginxPidExists := false } } ∧
      (rollback
          { sync := { env := [], remote := [] },
            repo := { head := 7, originHead := 7, lastCommit := some 5,
                      nginxPidExists := false } }).2 =
        .gitCheckout 5 ::
          restart { head := 5, originHead := 7, lastCommit := some 5,
                    nginxPidExists := false } :=
  @claim9_deploy_ordering { localFiles := [], dbPassValue := "pw" } [] []
    { sync := { env := [], remote := [] },
      repo := { head := 5, originHead := 7, lastCommit := none,
                nginxPidExists := false } }
    { sync := { env := [], remote := [] },
      repo := { head := 7, originHead := 7, lastCommit := some 5,
                nginxPidExists := false } }
    (by decide) (by decide)

/-- C1: a second `upload_template_and_reload` call immediately after a
completed first call — the local working tree unchanged and the remote
state as the first call left it — returns `Unchanged` and issues zero
upload, chown, chmod and reload operations.  The `db_pass` hypothesis is
the fabfile's run invariant: the variable is initially absent from `env`
and is only ever assigned the derived value. -/
theorem claim1_sync_idempotent {w : World} {reg : Registry} {name : String}
    {st : SyncState} {r : SyncResult}
    (hdb : dictGet st.env "db_pass" = none ∨
           dictGet st.env "db_pass" = some w.dbPassValue)
    (h1 : (upload_template_and_reload w reg name st).result = .ok r) :
    (upload_template_and_reload w reg name
        (upload_template_and_reload w reg name st).state).result =
      .ok .Unchanged ∧
    (upload_template_and_reload w reg name
        (upload_template_and_reload w reg name st).state).trace.countP
      isMutatingOp = 0 := by
  cases hg : get_templates reg st.env with
  | error e =>
    unfold upload_template_and_reload at h1
    simp only [hg] at h1
    simp at h1
  | ok rendered =>
  cases hn : dictGet rendered name with
  | none =>
    unfold upload_template_and_reload at h1
    simp only [hg, hn] at h1
    simp at h1
  | some t =>
  rw [utr_eq hg hn] at h1
  cases hl : dictGet w.localFiles t.local_path with
  | none =>
    unfold syncCore at h1
    simp only [hl] at h1
    simp at h1
  | some raw =>
  cases hint : interp (envAfter w st.env raw) raw with
  | error e =>
    unfold syncCore at h1
    simp only [hl, hint] at h1
    simp at h1
  | ok d =>
  have hLe1 : envLe st.env (envAfter w st.env raw) := envLe_envAfter hdb
  have hdb1 : dictGet (envAfter w st.env raw) "db_pass" = none ∨
      dictGet (envAfter w st.env raw) "db_pass" = some w.dbPassValue :=
    dictGet_envAfter_db hdb
  by_cases hcl : clean ((dictGet st.remote t.remote_path).getD "") = clean d
  · have hout1 : upload_template_and_reload w reg name st =
        ⟨.ok .Unchanged,
         { env := envAfter w st.env raw, remote := st.remote },
         readTrace t st ++ passTrace raw⟩ := by
      rw [utr_eq hg hn, syncCore_unchanged hl hint hcl]
    rw [hout1]
    have hg2 : get_templates reg
        ({ env := envAfter w st.env raw, remote := st.remote } :
          SyncState).env = .ok rendered := get_templates_mono hLe1 hg
    have hint2 : interp (envAfter w
        ({ env := envAfter w st.env raw, remote := st.remote } :
          SyncState).env raw) raw = .ok d :=
      interp_mono (envLe_envAfter hdb1) hint
    have hcl2 : clean ((dictGet
        ({ env := envAfter w st.env raw, remote := st.remote } :
          SyncState).remote t.remote_path).getD "") = clean d := hcl
    rw [utr_eq hg2 hn, syncCore_unchanged hl hint2 hcl2]
    refine ⟨rfl, ?_⟩
    simp only [List.countP_append]
    rw [readTrace_countP t
        { env := envAfter w st.env raw, remote := st.remote } isMutatingOp
        (fun _ => rfl) (fun _ => rfl),
      passTrace_countP raw isMutatingOp rfl]
  · have hout1 : upload_template_and_reload w reg name st =
        doChown w t ((dictGet st.remote t.remote_path).isSome)
          { env := envAfter w st.env raw,
            remote := dictSet st.remote t.remote_path d }
          (readTrace t st ++ passTrace raw ++
            [Op.upload t.remote_path d]) := by
      rw [utr_eq hg hn, syncCore_changed hl hint hcl]
    have hstate : (upload_template_and_reload w reg name st).state =
        { env := envAfter w st.env raw,
          remote := dictSet st.remote t.remote_path d } := by
      rw [hout1]
      exact doChown_state
    rw [hstate]
    have hg2 : get_templates reg
        ({ env := envAfter w st.env raw,
           remote := dictSet st.remote t.remote_path d } : SyncState).env =
        .ok rendered := get_templates_mono hLe1 hg
    have hint2 : interp (envAfter w
        ({ env := envAfter w st.env raw,
           remote := dictSet st.remote t.remote_path d } : SyncState).env
        raw) raw = .ok d :=
      interp_mono (envLe_envAfter hdb1) hint
    have hcl2 : clean ((dictGet
        ({ env := envAfter w st.env raw,
           remote := dictSet st.remote t.remote_path d } :
          SyncState).remote t.remote_path).getD "") = clean d := by
      show clean ((dictGet (dictSet st.remote t.remote_path d)
        t.remote_path).getD "") = clean d
      rw [dictGet_set_self]
      rfl
    rw [utr_eq hg2 hn, syncCore_unchanged hl hint2 hcl2]
    refine ⟨rfl, ?_⟩
    simp only [List.countP_append]
    rw [readTrace_countP t
        { env := envAfter w st.env raw,
          remote := dictSet st.remote t.remote_path d } isMutatingOp
        (fun _ => rfl) (fun _ => rfl),
      passTrace_countP raw isMutatingOp rfl]

/-- C1 witness: idempotence on a concrete scenario whose first call
uploads. -/
theorem claim1_sync_idempotent_witness :
    (upload_template_and_reload
        { localFiles := [("t.conf", "hello")], dbPassValue := "pw" }
        [("t", { local_path := "t.conf", remote_path := "/etc/t" })] "t"
        (upload_template_and_reload
          { localFiles := [("t.conf", "hello")], dbPassValue := "pw" }
          [("t", { local_path := "t.conf", remote_path := "/etc/t" })] "t"
          { env := [], remote := [] }).state).result = .ok .Unchanged :=
  (@claim1_sync_idempotent
    { localFiles := [("t.conf", "hello")], dbPassValue := "pw" }
    [("t", { local_path := "t.conf", remote_path := "/etc/t" })] "t"
    { env := [], remote := [] } .Created
    (Or.inl rfl) (by decide)).1

end Fabfile
